import Mathlib

/-!
Shallow embedding of the cachin caching library (github.com/weave-lab/cachin).

Modelling conventions:
* `time.Time` instants are integers (nanoseconds since epoch); Go's zero
  `time.Time` is the integer `0` and `IsZero` is `= 0`.
* `time.Duration` is an integer number of nanoseconds (Go's `int64`).
* Go byte slices are `List Nat`.
* Go `error` values coming out of a `Store` backend or a producer function are
  `Option String` (`none` = nil error); the sentinel-wrapped errors produced by
  `persist.Data` are the inductive `CacheErr` mirroring `ErrExternalCache` and
  `ErrNotSerializable` with the appended detail string.
* A `Store` backend is modelled as a pair of pure functions over an explicit
  backend state `σ` (`Get` does not change backend state; `Set` may).
* The dynamic `Serializable`-vs-JSON dispatch in `Data.Bytes`/`Data.FromBytes`
  is abstracted as a `Codec`: `enc` models `Data.Bytes` on a given value and
  `dec` models `Data.FromBytes` (returning the hydrated value on success).
* Time is held fixed during a single call; `now` is the call's time.
-/

namespace Cachin

abbrev Bytes := List Nat
abbrev Time := Int
abbrev Duration := Int

/-- Go `persist.Forever`: cache data persists forever and never expires. -/
def Forever : Duration := 0

/-- Errors produced by `persist.Data`: `fmt.Errorf("%w | %s", sentinel, detail)`
wrapping `ErrExternalCache` or `ErrNotSerializable`. -/
inductive CacheErr where
  | externalCache (detail : String)
  | notSerializable (detail : String)
deriving DecidableEq, Repr

/-- The `persist.Store` interface: `Get(ctx, key) ([]byte, time.Time, error)`
and `Set(ctx, key, []byte) error`, over an explicit backend state `σ`. -/
structure Store (σ : Type) where
  get : σ → String → Bytes × Time × Option String
  set : σ → String → Bytes → σ × Option String

/-- The serialization strategy used by `Data.Bytes` / `Data.FromBytes`:
either the value type's `Serializable` implementation or JSON
marshalling/unmarshalling. `enc` can fail (`Bytes`), `dec` can fail
(`FromBytes`). -/
structure Codec (T : Type) where
  enc : T → Option Bytes
  dec : Bytes → Option T

/-- Go `persist.Data[T]` without the store reference (the store and its backend
state are passed explicitly to the operations). -/
structure Data (T : Type) where
  value : T
  lastSet : Time
  key : String
deriving DecidableEq, Repr

/-- Go `persist.NewData`: zero value, zero `lastSet`, the given key. -/
def NewData (T : Type) [Inhabited T] (key : String) : Data T :=
  { value := default, lastSet := 0, key := key }

/-- Go `Data.Get`: returns the underlying value. -/
def Data.GetV {T : Type} (d : Data T) : T := d.value

/-- Go `Data.IsUnset`: true iff `lastSet` is the zero timestamp. -/
def Data.IsUnset {T : Type} (d : Data T) : Bool := d.lastSet == 0

/-- Go `Data.Age`: `time.Since(d.lastSet)` at the instant `now`. -/
def Data.Age {T : Type} (d : Data T) (now : Time) : Duration := now - d.lastSet

/-- Go `Data.IsExpired`: false if `ttl` is `Forever`, otherwise `Age > ttl`. -/
def Data.IsExpired {T : Type} (d : Data T) (ttl : Duration) (now : Time) : Bool :=
  if ttl = Forever then false else d.Age now > ttl

/-- Go `Data.ResetTTL`: sets `lastSet` to the current time. -/
def Data.ResetTTL {T : Type} (d : Data T) (now : Time) : Data T :=
  { d with lastSet := now }

/-- Go `Data.Load`: no-op if already set or no store. Otherwise reads from the
store; a read error or a zero `lastUpdate` yields an `ErrExternalCache`
wrapper, a decode failure yields `ErrNotSerializable`, and on success the
value and the store's reported timestamp are installed. -/
def Data.Load {T σ : Type} (c : Codec T) (store? : Option (Store σ)) (s : σ)
    (d : Data T) : Data T × Option CacheErr :=
  if d.IsUnset then
    match store? with
    | none => (d, none)
    | some st =>
      let r := st.get s d.key
      match r.2.2 with
      | some e => (d, some (.externalCache e))
      | none =>
        if r.2.1 = 0 then
          (d, some (.externalCache "last update was not set"))
        else
          match c.dec r.1 with
          | none => (d, some (.notSerializable "decode failed"))
          | some v => ({ d with value := v, lastSet := r.2.1 }, none)
  else
    (d, none)

/-- Go `Data.Set`: always installs the in-memory value and `lastSet = now()`;
then, if a store is attached, encodes and writes, surfacing
`ErrNotSerializable` or `ErrExternalCache` without rolling back. Returns the
updated data, the backend state, and the error. -/
def Data.Set {T σ : Type} (c : Codec T) (store? : Option (Store σ)) (now : Time)
    (s : σ) (d : Data T) (a : T) : Data T × σ × Option CacheErr :=
  let d' : Data T := { d with value := a, lastSet := now }
  match store? with
  | none => (d', s, none)
  | some st =>
    match c.enc a with
    | none => (d', s, some (.notSerializable "encode failed"))
    | some raw =>
      let r := st.set s d'.key raw
      match r.2 with
      | some e => (d', r.1, some (.externalCache e))
      | none => (d', r.1, none)

/-- Go `cache.readOptions`: per-call options built by `WithRefreshTTL` /
`WithForceRefresh`; both default to false. -/
structure readOptions where
  refreshTTL : Bool := false
  forceRefresh : Bool := false
deriving DecidableEq, Repr

/-- Result of one invocation of the closure returned by `cache.InMemory`:
the returned value and producer error, together with the closure's captured
`data` state after the call and (instrumentation) whether `fn` was invoked. -/
structure InMemResult (T : Type) where
  value : T
  err : Option String
  data : Data T
  invoked : Bool
deriving DecidableEq, Repr

/-- Result of one invocation of the closure returned by `cache.Func`:
the three-way return `(value, cache error, producer error)`, the captured
`data` state and backend state after the call, and (instrumentation) whether
`fn` was invoked. -/
structure FuncResult (T σ : Type) where
  value : T
  cacheErr : Option CacheErr
  prodErr : Option String
  data : Data T
  store : σ
  invoked : Bool
deriving DecidableEq, Repr

/-- The refreshTTL preprocessing step shared by `cache.InMemory` and
`cache.Func`: `if !data.IsExpired(ttl) && !data.IsUnset() && read.refreshTTL
{ data.ResetTTL() }`. -/
def refreshStep {T : Type} (ttl : Duration) (now : Time) (read : readOptions)
    (d : Data T) : Data T :=
  if !d.IsExpired ttl now && !d.IsUnset && read.refreshTTL then d.ResetTTL now else d

/-- One invocation of the closure returned by `cache.InMemory` (no store):
the producer's outcome, were it invoked, is the pair `fn`. -/
def InMemoryCall {T : Type} (c : Codec T) (ttl : Duration) (now : Time)
    (fn : T × Option String) (read : readOptions) (d : Data T) : InMemResult T :=
  let d := refreshStep ttl now read d
  if read.forceRefresh || d.IsUnset || d.IsExpired ttl now then
    match fn.2 with
    | some e => { value := d.GetV, err := some e, data := d, invoked := true }
    | none =>
      let r := Data.Set c (none : Option (Store Unit)) now () d fn.1
      { value := r.1.GetV, err := none, data := r.1, invoked := true }
  else
    { value := d.GetV, err := none, data := d, invoked := false }

/-- The load + refreshTTL preprocessing prefix of a `cache.Func` invocation:
`loadErr := data.Load(ctx)` followed by the refreshTTL step. -/
def FuncPre {T σ : Type} (c : Codec T) (store? : Option (Store σ)) (ttl : Duration)
    (now : Time) (read : readOptions) (s : σ) (d : Data T) :
    Data T × Option CacheErr :=
  let r := Data.Load c store? s d
  (refreshStep ttl now read r.1, r.2)

/-- One invocation of the closure returned by `cache.Func`: load, refreshTTL
step, recompute decision, producer invocation and commit, with the three-way
return `(value, cache error, producer error)`. -/
def FuncCall {T σ : Type} (c : Codec T) (store? : Option (Store σ)) (ttl : Duration)
    (now : Time) (fn : T × Option String) (read : readOptions) (s : σ)
    (d : Data T) : FuncResult T σ :=
  let p := FuncPre c store? ttl now read s d
  let d := p.1
  let loadErr := p.2
  if read.forceRefresh || d.IsUnset || d.IsExpired ttl now then
    match fn.2 with
    | some e =>
      { value := d.GetV, cacheErr := loadErr, prodErr := some e, data := d,
        store := s, invoked := true }
    | none =>
      let r := Data.Set c store? now s d fn.1
      match r.2.2 with
      | some e =>
        { value := fn.1, cacheErr := some e, prodErr := none, data := r.1,
          store := r.2.1, invoked := true }
      | none =>
        { value := r.1.GetV, cacheErr := none, prodErr := none, data := r.1,
          store := r.2.1, invoked := true }
  else
    { value := d.GetV, cacheErr := none, prodErr := none, data := d,
      store := s, invoked := false }

/-- A `MultiStore` constituent store's `Get` behaviour for a fixed backend
content: what `store.Get(ctx, key)` returns. -/
abbrev GetStore := String → Bytes × Time × Option String

/-- The loop of `MultiStore.Get`, carrying the `errs` accumulator: each
store's error (if any) is recorded, then the freshness gate
`time.Since(lastUpdate) < expire` decides an immediate hit. -/
def MultiStore.GetAux (now : Time) (expire : Duration) (key : String) :
    List GetStore → List String → Bytes × Time × Option String
  | [], errs =>
    if errs.length > 0 then
      ([], 0, some ("errs: " ++ String.intercalate "|" errs))
    else
      ([], 0, none)
  | st :: rest, errs =>
    let r := st key
    let errs := match r.2.2 with
      | some e => errs ++ [e]
      | none => errs
    if now - r.2.1 < expire then (r.1, r.2.1, none)
    else MultiStore.GetAux now expire key rest errs

/-- Go `MultiStore.Get`: freshness-gated first match over the stores in
configuration order, with error aggregation when no store yields a fresh
hit. -/
def MultiStore.Get (now : Time) (expire : Duration) (stores : List GetStore)
    (key : String) : Bytes × Time × Option String :=
  MultiStore.GetAux now expire key stores []

/-- A `MultiStore` constituent store for `Set`: the backend state records the
writes performed (in order), and `err` is the backend's response to a write. -/
structure SetStore where
  writes : List (String × Bytes)
  err : String → Bytes → Option String

/-- One `store.Set(ctx, key, val)` against a constituent store: the write is
performed (recorded) and the backend's response returned. -/
def SetStore.doSet (st : SetStore) (key : String) (val : Bytes) :
    SetStore × Option String :=
  ({ st with writes := st.writes ++ [(key, val)] }, st.err key val)

/-- The loop of `MultiStore.Set`: write to each store in order, collecting
error strings. -/
def MultiStore.SetAux (key : String) (val : Bytes) :
    List SetStore → List String → List SetStore × List String
  | [], errs => ([], errs)
  | st :: rest, errs =>
    let r := st.doSet key val
    let errs := match r.2 with
      | some e => errs ++ [e]
      | none => errs
    let rec' := MultiStore.SetAux key val rest errs
    (r.1 :: rec'.1, rec'.2)

/-- Go `MultiStore.Set`: fan-out write to every store, then
`return fmt.Errorf("errs: %v", strings.Join(errs, "|"))` — always a non-nil
error. -/
def MultiStore.Set (stores : List SetStore) (key : String) (val : Bytes) :
    List SetStore × Option String :=
  let r := MultiStore.SetAux key val stores []
  (r.1, some ("errs: " ++ String.intercalate "|" r.2))

/-- A `MultiStore` constituent store for `Delete`: the backend state records
the deletes performed (in order), and `err` is the backend's response. -/
structure DelStore where
  deletes : List String
  err : String → Option String

/-- One `store.Delete(ctx, key)` against a constituent store. -/
def DelStore.doDelete (st : DelStore) (key : String) : DelStore × Option String :=
  ({ st with deletes := st.deletes ++ [key] }, st.err key)

/-- The loop of `MultiStore.Delete`: delete at each store in order, collecting
error strings. -/
def MultiStore.DeleteAux (key : String) :
    List DelStore → List String → List DelStore × List String
  | [], errs => ([], errs)
  | st :: rest, errs =>
    let r := st.doDelete key
    let errs := match r.2 with
      | some e => errs ++ [e]
      | none => errs
    let rec' := MultiStore.DeleteAux key rest errs
    (r.1 :: rec'.1, rec'.2)

/-- Go `MultiStore.Delete`: fan-out delete at every store, then
`return fmt.Errorf("errs: %v", strings.Join(errs, "|"))` — always a non-nil
error. -/
def MultiStore.Delete (stores : List DelStore) (key : String) :
    List DelStore × Option String :=
  let r := MultiStore.DeleteAux key stores []
  (r.1, some ("errs: " ++ String.intercalate "|" r.2))

/-- Go `cache.Map[K, V]`, restricted to the fields `Get` reads: the entry map
(keyed by the derived string `k.String()`) and the map's ttl. -/
structure Map (V : Type) where
  data : List (String × Data V)
  ttl : Duration

/-- Go `Map.Get`: zero value and false if the entry is absent or expired for the
map's ttl at read time; otherwise the stored value and true. -/
def Map.Get {V : Type} [Inhabited V] (m : Map V) (now : Time) (k : String) :
    V × Bool :=
  match m.data.lookup k with
  | none => (default, false)
  | some d => if d.IsExpired m.ttl now then (default, false) else (d.GetV, true)

/-! ### Concrete instances used to evaluate the development -/

/-- A concrete codec on `Nat`: one byte holding the value. -/
def natCodec : Codec Nat :=
  ⟨fun n => some [n], fun b => match b with | [n] => some n | _ => none⟩

/-- A backend whose `Get` always reports a clean miss: no data, zero
timestamp, nil error (the behaviour of `FsStore.Get` on a missing file). -/
def missStore : Store Unit :=
  ⟨fun _ _ => ([], 0, none), fun s _ _ => (s, none)⟩

/-- A backend holding the encoding of `42`, written at time `5`. -/
def staleStore : Store Unit :=
  ⟨fun _ _ => ([42], 5, none), fun s _ _ => (s, none)⟩

/-- The filesystem backend (`persist.FsStore`) on its success path: backend
state is the directory contents, one entry per key holding the raw bytes and
the file's modification time; a missing key is a clean miss; a write performed
at instant `tw` stores the bytes with modification time `tw`. -/
def FsStoreModel (tw : Time) : Store (List (String × Bytes × Time)) :=
  ⟨fun s key =>
      match s.lookup key with
      | none => ([], 0, none)
      | some bt => (bt.1, bt.2, none),
   fun s key val => ((key, val, tw) :: s, none)⟩

/-- A constituent store answering every read with an error. -/
def errGetStore : GetStore := fun _ => ([], 0, some "eA")

/-- A constituent store answering every read with data written at time 50. -/
def staleGetStore : GetStore := fun _ => ([2], 50, none)

/-- A constituent store answering every read with data written at time 95. -/
def freshGetStore : GetStore := fun _ => ([1], 95, none)

/-! ### Helper lemmas -/

theorem refreshStep_value {T : Type} (ttl : Duration) (now : Time)
    (read : readOptions) (d : Data T) :
    (refreshStep ttl now read d).value = d.value := by
  unfold refreshStep Data.ResetTTL
  split <;> rfl

theorem refreshStep_of_not_refresh {T : Type} (ttl : Duration) (now : Time)
    (read : readOptions) (d : Data T) (h : read.refreshTTL = false) :
    refreshStep ttl now read d = d := by
  unfold refreshStep
  simp [h]

theorem load_of_set {T σ : Type} (c : Codec T) (store? : Option (Store σ))
    (s : σ) (d : Data T) (h : d.IsUnset = false) :
    Data.Load c store? s d = (d, none) := by
  unfold Data.Load
  simp [h]

theorem multiStore_setAux_eq (key : String) (val : Bytes) :
    ∀ (stores : List SetStore) (errs : List String),
      MultiStore.SetAux key val stores errs =
        (stores.map (fun st => { st with writes := st.writes ++ [(key, val)] }),
         errs ++ stores.filterMap (fun st => st.err key val)) := by
  intro stores
  induction stores with
  | nil => intro errs; simp [MultiStore.SetAux]
  | cons st rest ih =>
    intro errs
    cases h : st.err key val <;>
      simp [MultiStore.SetAux, SetStore.doSet, h, ih, List.filterMap_cons,
        List.append_assoc]

theorem multiStore_deleteAux_eq (key : String) :
    ∀ (stores : List DelStore) (errs : List String),
      MultiStore.DeleteAux key stores errs =
        (stores.map (fun st => { st with deletes := st.deletes ++ [key] }),
         errs ++ stores.filterMap (fun st => st.err key)) := by
  intro stores
  induction stores with
  | nil => intro errs; simp [MultiStore.DeleteAux]
  | cons st rest ih =>
    intro errs
    cases h : st.err key <;>
      simp [MultiStore.DeleteAux, DelStore.doDelete, h, ih, List.filterMap_cons,
        List.append_assoc]

theorem multiStore_getAux_eq (now : Time) (expire : Duration) (key : String) :
    ∀ (stores : List GetStore) (errs : List String),
      MultiStore.GetAux now expire key stores errs =
        match stores.find? (fun st => decide (now - (st key).2.1 < expire)) with
        | some st₀ => ((st₀ key).1, (st₀ key).2.1, none)
        | none =>
          let all := errs ++ stores.filterMap (fun st => (st key).2.2)
          if all.isEmpty then ([], 0, none)
          else ([], 0, some ("errs: " ++ String.intercalate "|" all)) := by
  intro stores
  induction stores with
  | nil =>
    intro errs
    cases errs <;> simp [MultiStore.GetAux]
  | cons st rest ih =>
    intro errs
    by_cases hp : now - (st key).2.1 < expire
    · cases h : (st key).2.2 <;>
        simp [MultiStore.GetAux, h, hp, List.find?_cons_of_pos]
    · cases h : (st key).2.2 <;>
        simp [MultiStore.GetAux, h, hp, List.find?_cons_of_neg, ih,
          List.filterMap_cons, List.append_assoc]

/-! ### Claim theorems -/

/-- Claim C4: for every ordered list of stores, key, and value, `MultiStore.Set`
writes to every configured store with no early exit, and always returns a
non-nil aggregated error (the join of all individual error strings), even
when every underlying write succeeded; `MultiStore.Delete` follows the same
fan-out and aggregation pattern. -/
theorem C4_multistore_fanout_always_errs (stores : List SetStore)
    (dstores : List DelStore) (key : String) (val : Bytes) :
    (MultiStore.Set stores key val).1.map SetStore.writes =
      stores.map (fun st => st.writes ++ [(key, val)]) ∧
    (MultiStore.Set stores key val).2 =
      some ("errs: " ++ String.intercalate "|"
        (stores.filterMap (fun st => st.err key val))) ∧
    (MultiStore.Set stores key val).2 ≠ none ∧
    (MultiStore.Delete dstores key).1.map DelStore.deletes =
      dstores.map (fun st => st.deletes ++ [key]) ∧
    (MultiStore.Delete dstores key).2 =
      some ("errs: " ++ String.intercalate "|"
        (dstores.filterMap (fun st => st.err key))) ∧
    (MultiStore.Delete dstores key).2 ≠ none := by
  refine ⟨?_, ?_, ?_, ?_, ?_, ?_⟩ <;>
    simp [MultiStore.Set, MultiStore.Delete, multiStore_setAux_eq,
      multiStore_deleteAux_eq, List.map_map, Function.comp]

/-- Claim C5: `MultiStore.Get` returns, with nil error, the data and timestamp of
the first store in configuration order whose returned timestamp has age
`now − lastUpdate` strictly less than the expire window, continuing past
stores that return errors; if no store yields a fresh hit it returns an
aggregated error when any read errored, and otherwise a clean miss (nil
data, zero timestamp, nil error). -/
theorem C5_multistore_get_freshness_gated (now : Time) (expire : Duration)
    (stores : List GetStore) (key : String) :
    (∀ st₀, stores.find? (fun st => decide (now - (st key).2.1 < expire)) = some st₀ →
      MultiStore.Get now expire stores key = ((st₀ key).1, (st₀ key).2.1, none)) ∧
    (stores.find? (fun st => decide (now - (st key).2.1 < expire)) = none →
      MultiStore.Get now expire stores key =
        (if (stores.filterMap (fun st => (st key).2.2)).isEmpty then
          ([], 0, none)
        else
          ([], 0, some ("errs: " ++ String.intercalate "|"
            (stores.filterMap (fun st => (st key).2.2)))))) := by
  constructor
  · intro st₀ h
    simp [MultiStore.Get, multiStore_getAux_eq, h]
  · intro h
    simp [MultiStore.Get, multiStore_getAux_eq, h]

/-- Claim C5 witness: with a first store that errors and a second whose data is
stale, `MultiStore.Get` aggregates the error. -/
theorem C5_witness :
    MultiStore.Get 100 10 [errGetStore, staleGetStore] "k" =
      ([], 0, some "errs: eA") := by
  have h := (C5_multistore_get_freshness_gated 100 10 [errGetStore, staleGetStore] "k").2
    (by rfl)
  rw [h]
  decide

/-- Claim C1 counterexample: on a clean miss (no data, zero timestamp, nil error
from the store) `Data.Load` does NOT return a nil error — it reports an
external-cache error, contradicting the claim that a clean miss is treated
as "nothing to load, not an error". -/
theorem C1_counterexample :
    (Data.Load natCodec (some missStore) () (NewData Nat "k")).2 ≠ none := by
  decide

/-- Claim C1 amended: when the attached Store's `Get` returns a zero timestamp and
a nil error (a clean miss), `Data.Load` returns the `ErrExternalCache`
wrapper "last update was not set" and leaves the value unchanged (hence
still unset). -/
theorem C1_load_clean_miss_is_error {T σ : Type} (c : Codec T) (st : Store σ)
    (s : σ) (d : Data T) (hunset : d.IsUnset = true)
    (herr : (st.get s d.key).2.2 = none) (hts : (st.get s d.key).2.1 = 0) :
    Data.Load c (some st) s d =
      (d, some (.externalCache "last update was not set")) := by
  unfold Data.Load
  simp [hunset, herr, hts]

/-- Claim C1 witness: the amended load-miss behaviour at a concrete store. -/
theorem C1_witness :
    Data.Load natCodec (some missStore) () (NewData Nat "k") =
      (NewData Nat "k", some (.externalCache "last update was not set")) :=
  C1_load_clean_miss_is_error natCodec missStore () (NewData Nat "k")
    (by decide) rfl rfl

/-- Claim C6: `IsExpired ttl` is false when `ttl` is the `Forever` sentinel and
otherwise true iff `now − lastSet > ttl`; consequently, with `ttl = Forever`
and default options, a previously set value is never recomputed by either
read-through wrapper, no matter how much time has elapsed. -/
theorem C6_forever_never_recomputes {T σ : Type} (c : Codec T)
    (store? : Option (Store σ)) (s : σ) (d : Data T) (now : Time)
    (fn : T × Option String) :
    d.IsExpired Forever now = false ∧
    (∀ ttl : Duration, ttl ≠ Forever →
      d.IsExpired ttl now = decide (now - d.lastSet > ttl)) ∧
    (d.IsUnset = false →
      (InMemoryCall c Forever now fn {} d).invoked = false ∧
      (FuncCall c store? Forever now fn {} s d).invoked = false) := by
  refine ⟨?_, ?_, ?_⟩
  · simp [Data.IsExpired]
  · intro ttl h
    simp [Data.IsExpired, Data.Age, h]
  · intro hset
    have hload := load_of_set c store? s d hset
    have href : refreshStep Forever now { } d = d :=
      refreshStep_of_not_refresh Forever now { } d rfl
    constructor
    · simp [InMemoryCall, href, hset, Data.IsExpired]
    · simp [FuncCall, FuncPre, hload, href, hset, Data.IsExpired]

/-- Claim C6 witness: a concrete set value with TTL `Forever` and default options
is not recomputed. -/
theorem C6_witness :
    (⟨3, 50, ""⟩ : Data Nat).IsUnset = false ∧
    (InMemoryCall natCodec Forever 1000000 (7, none) {} ⟨3, 50, ""⟩).invoked = false :=
  ⟨by decide,
   ((C6_forever_never_recomputes natCodec (some missStore) () ⟨3, 50, ""⟩ 1000000
      (7, none)).2.2 (by decide)).1⟩

/-- Claim C7: `Set` always installs the new value and `lastSet = now()` before any
store interaction; a serialization or store-write failure is returned as an
error but does not clear `lastSet` or revert the value, so after `Set`
returns (with or without error) `Get()` equals the new value and `IsUnset()`
is false. -/
theorem C7_set_in_memory_authoritative {T σ : Type} (c : Codec T)
    (store? : Option (Store σ)) (now : Time) (s : σ) (d : Data T) (v : T)
    (hnow : 0 < now) :
    (Data.Set c store? now s d v).1.value = v ∧
    (Data.Set c store? now s d v).1.lastSet = now ∧
    (Data.Set c store? now s d v).1.GetV = v ∧
    (Data.Set c store? now s d v).1.IsUnset = false ∧
    (Data.Set c store? now s d v).1.key = d.key := by
  have hz : (now == (0 : Int)) = false := by
    simp [Int.ne_of_gt hnow]
  unfold Data.Set Data.GetV Data.IsUnset
  rcases store? with _ | st
  · simp [hz]
  · cases he : c.enc v with
    | none => simp [hz]
    | some raw => cases hs : (st.set s d.key raw).2 <;> simp [hz, hs]

/-- Claim C7 witness: a concrete failed store write still leaves the in-memory
value authoritative. -/
theorem C7_witness :
    (0 : Int) < 5 ∧
    (Data.Set natCodec (some missStore) 5 () (NewData Nat "k") 42).1.GetV = 42 :=
  ⟨by decide,
   (C7_set_in_memory_authoritative natCodec (some missStore) 5 () (NewData Nat "k")
      42 (by decide)).2.2.1⟩

/-- Claim C2 counterexample: `Func` with a store holding a stale value and an
in-memory value never set. The producer fails, yet the returned value is the
value loaded from the store during the same call — not the empty value the
claim requires for a never-set value — and the in-memory cached state was
changed by the call (the load populated it). -/
theorem C2_counterexample :
    (FuncCall natCodec (some staleStore) 10 100 (7, some "boom") {} ()
        (NewData Nat "k")).prodErr = some "boom" ∧
    (FuncCall natCodec (some staleStore) 10 100 (7, some "boom") {} ()
        (NewData Nat "k")).value ≠ (NewData Nat "k").value ∧
    (FuncCall natCodec (some staleStore) 10 100 (7, some "boom") {} ()
        (NewData Nat "k")).data ≠ NewData Nat "k" := by
  decide

/-- Claim C2 amended: when the producer fails, the wrapper returns the value cached
at the moment the producer was invoked (for `Func` this may be a value just
loaded from the Store during the same call) together with the producer's
non-nil error and, for `Func`, any load error on the cache-error channel;
the producer failure itself changes nothing: the state after the call equals
the state after the call's load/refreshTTL preprocessing, the returned value
never differs from the in-memory value (for `InMemory` it always equals the
pre-call value), and no store write occurs. -/
theorem C2_producer_error_returns_stale {T σ : Type} (c : Codec T)
    (store? : Option (Store σ)) (ttl : Duration) (now : Time) (got : T)
    (e : String) (read : readOptions) (s : σ) (d : Data T) :
    ((InMemoryCall c ttl now (got, some e) read d).value = d.value ∧
     (InMemoryCall c ttl now (got, some e) read d).data.value = d.value ∧
     ((InMemoryCall c ttl now (got, some e) read d).invoked = true →
       (InMemoryCall c ttl now (got, some e) read d).err = some e ∧
       (InMemoryCall c ttl now (got, some e) read d).data =
         refreshStep ttl now read d)) ∧
    ((FuncCall c store? ttl now (got, some e) read s d).invoked = true →
      (FuncCall c store? ttl now (got, some e) read s d).prodErr = some e ∧
      (FuncCall c store? ttl now (got, some e) read s d).cacheErr =
        (FuncPre c store? ttl now read s d).2 ∧
      (FuncCall c store? ttl now (got, some e) read s d).value =
        (FuncPre c store? ttl now read s d).1.value ∧
      (FuncCall c store? ttl now (got, some e) read s d).data =
        (FuncPre c store? ttl now read s d).1 ∧
      (FuncCall c store? ttl now (got, some e) read s d).store = s) := by
  constructor
  · refine ⟨?_, ?_, ?_⟩ <;>
      · simp only [InMemoryCall, Data.GetV]
        split <;> simp [refreshStep_value]
  · intro h
    refine ⟨?_, ?_, ?_, ?_, ?_⟩ <;>
      · simp only [FuncCall, Data.GetV] at h ⊢
        split at h <;> simp_all

/-- Claim C2 witness: a concrete producer failure on a set, fresh in-memory value
returns the previous value and the producer's error. -/
theorem C2_witness :
    (InMemoryCall natCodec 10 100 (7, some "boom") { forceRefresh := true }
        (⟨3, 95, ""⟩ : Data Nat)).invoked = true ∧
    (InMemoryCall natCodec 10 100 (7, some "boom") { forceRefresh := true }
        (⟨3, 95, ""⟩ : Data Nat)).value = 3 ∧
    (InMemoryCall natCodec 10 100 (7, some "boom") { forceRefresh := true }
        (⟨3, 95, ""⟩ : Data Nat)).err = some "boom" :=
  ⟨by decide,
   (C2_producer_error_returns_stale natCodec (some missStore) 10 100 7 "boom"
      { forceRefresh := true } () ⟨3, 95, ""⟩).1.1,
   ((C2_producer_error_returns_stale natCodec (some missStore) 10 100 7 "boom"
      { forceRefresh := true } () ⟨3, 95, ""⟩).1.2.2 (by decide)).1⟩

/-- Claim C3: in both wrappers the producer is invoked exactly when
`forceRefresh || IsUnset || IsExpired ttl`, evaluated on the cached value's
state after the call's load (for `Func`) and refreshTTL preprocessing; when
the producer is not invoked, the wrapper returns the current cached value
with no errors and changes nothing. -/
theorem C3_recompute_decision {T σ : Type} (c : Codec T)
    (store? : Option (Store σ)) (ttl : Duration) (now : Time)
    (fn : T × Option String) (read : readOptions) (s : σ) (d : Data T) :
    (InMemoryCall c ttl now fn read d).invoked =
      (read.forceRefresh || (refreshStep ttl now read d).IsUnset ||
        (refreshStep ttl now read d).IsExpired ttl now) ∧
    ((InMemoryCall c ttl now fn read d).invoked = false →
      InMemoryCall c ttl now fn read d =
        { value := (refreshStep ttl now read d).GetV, err := none,
          data := refreshStep ttl now read d, invoked := false }) ∧
    (FuncCall c store? ttl now fn read s d).invoked =
      (read.forceRefresh || (FuncPre c store? ttl now read s d).1.IsUnset ||
        (FuncPre c store? ttl now read s d).1.IsExpired ttl now) ∧
    ((FuncCall c store? ttl now fn read s d).invoked = false →
      FuncCall c store? ttl now fn read s d =
        { value := (FuncPre c store? ttl now read s d).1.GetV, cacheErr := none,
          prodErr := none, data := (FuncPre c store? ttl now read s d).1,
          store := s, invoked := false }) := by
  refine ⟨?_, ?_, ?_, ?_⟩
  · simp only [InMemoryCall]
    split
    · cases hf : fn.2 <;> simp_all
    · simp_all
  · intro h
    simp only [InMemoryCall] at h ⊢
    split at h
    · cases hf : fn.2 <;> simp_all
    · simp_all
  · simp only [FuncCall]
    split
    · cases hf : fn.2
      · simp only [hf]
        split <;> simp_all
      · simp_all
    · simp_all
  · intro h
    simp only [FuncCall] at h ⊢
    split at h
    · cases hf : fn.2
      · simp only [hf] at h
        split at h <;> simp_all
      · simp_all
    · simp_all

/-- Claim C3 witness: with a fresh set value and no options the producer is not
invoked and the cached value is returned without errors. -/
theorem C3_witness :
    (InMemoryCall natCodec 10 100 (7, none) {} (⟨3, 95, ""⟩ : Data Nat)).invoked =
      false ∧
    InMemoryCall natCodec 10 100 (7, none) {} (⟨3, 95, ""⟩ : Data Nat) =
      { value := 3, err := none, data := ⟨3, 95, ""⟩, invoked := false } :=
  ⟨by decide,
   by
    have h := (C3_recompute_decision natCodec (some missStore) 10 100 (7, none) {}
      () (⟨3, 95, ""⟩ : Data Nat)).2.1 (by decide)
    rw [h]
    decide⟩

/-- Claim C8: a value committed via `Set` to a Store under some key and then
`Load`ed into a fresh cached value with the same store and key satisfies:
`Get()` after `Load` equals the original value, `Load` reports no error, and
`lastSet` (hence `IsExpired`) reflects the original write time `tw`, not the
load time (`Load` never consults the clock). Stated for the filesystem-store
model and a codec that round-trips the committed value. -/
theorem C8_store_roundtrip {T : Type} [Inhabited T] (c : Codec T) (v : T)
    (bv : Bytes) (s : List (String × Bytes × Time)) (tw : Time) (d0 : Data T)
    (htw : tw ≠ 0) (henc : c.enc v = some bv) (hdec : c.dec bv = some v) :
    (Data.Load c (some (FsStoreModel tw))
      (Data.Set c (some (FsStoreModel tw)) tw s d0 v).2.1 (NewData T d0.key)).2 =
        none ∧
    (Data.Load c (some (FsStoreModel tw))
      (Data.Set c (some (FsStoreModel tw)) tw s d0 v).2.1
        (NewData T d0.key)).1.GetV = v ∧
    (Data.Load c (some (FsStoreModel tw))
      (Data.Set c (some (FsStoreModel tw)) tw s d0 v).2.1
        (NewData T d0.key)).1.lastSet = tw ∧
    (∀ (ttl : Duration) (now2 : Time),
      (Data.Load c (some (FsStoreModel tw))
        (Data.Set c (some (FsStoreModel tw)) tw s d0 v).2.1
          (NewData T d0.key)).1.IsExpired ttl now2 =
        if ttl = Forever then false else decide (now2 - tw > ttl)) := by
  have hset :
      (Data.Set c (some (FsStoreModel tw)) tw s d0 v).2.1 =
        (d0.key, bv, tw) :: s := by
    unfold Data.Set FsStoreModel
    simp [henc]
  have hload :
      Data.Load c (some (FsStoreModel tw)) ((d0.key, bv, tw) :: s)
        (NewData T d0.key) =
        ({ value := v, lastSet := tw, key := d0.key }, none) := by
    unfold Data.Load FsStoreModel NewData Data.IsUnset
    simp [htw, hdec, List.lookup]
  rw [hset, hload]
  refine ⟨rfl, rfl, rfl, ?_⟩
  intro ttl now2
  simp [Data.IsExpired, Data.Age]

/-- Claim C8 witness: a concrete round trip through the filesystem-store model. -/
theorem C8_witness :
    (7 : Time) ≠ 0 ∧
    (Data.Load natCodec (some (FsStoreModel 7))
      (Data.Set natCodec (some (FsStoreModel 7)) 7 [] (⟨0, 0, "k"⟩ : Data Nat)
        42).2.1 (NewData Nat "k")).1.GetV = 42 :=
  ⟨by decide,
   (C8_store_roundtrip natCodec 42 [42] [] 7 ⟨0, 0, "k"⟩ (by decide) rfl
      rfl).2.1⟩

/-- Claim C9 counterexample: a read-through call with the refreshTTL option on a
set, non-expired value — but also with forceRefresh — DOES invoke the
producer, changes the cached value, and writes to the Store, contradicting
the claim's "without invoking the producer, without changing the cached
value, and without writing to the Store". -/
theorem C9_counterexample :
    ((⟨3, 95, "k"⟩ : Data Nat).IsUnset = false ∧
      (⟨3, 95, "k"⟩ : Data Nat).IsExpired 10 100 = false) ∧
    (FuncCall natCodec (some (FsStoreModel 100)) 10 100 (7, none)
        { refreshTTL := true, forceRefresh := true } [] ⟨3, 95, "k"⟩).invoked =
      true ∧
    (FuncCall natCodec (some (FsStoreModel 100)) 10 100 (7, none)
        { refreshTTL := true, forceRefresh := true } [] ⟨3, 95, "k"⟩).data.value =
      7 ∧
    (FuncCall natCodec (some (FsStoreModel 100)) 10 100 (7, none)
        { refreshTTL := true, forceRefresh := true } [] ⟨3, 95, "k"⟩).store ≠
      [] := by
  decide

/-- Claim C9 amended: for a read-through call made with refreshTTL but without
forceRefresh, at a positive call time and with a nonnegative ttl, while the
cached value is set and not expired for that ttl: the freshness clock is
reset to the call's time without invoking the producer, without changing the
cached value, without errors, and without touching the Store. -/
theorem C9_refresh_ttl_resets_clock {T σ : Type} (c : Codec T)
    (store? : Option (Store σ)) (ttl : Duration) (now : Time)
    (fn : T × Option String) (read : readOptions) (s : σ) (d : Data T)
    (hr : read.refreshTTL = true) (hf : read.forceRefresh = false)
    (httl : 0 ≤ ttl) (hnow : 0 < now) (hset : d.IsUnset = false)
    (hfresh : d.IsExpired ttl now = false) :
    (InMemoryCall c ttl now fn read d).invoked = false ∧
    InMemoryCall c ttl now fn read d =
      { value := d.GetV, err := none, data := d.ResetTTL now,
        invoked := false } ∧
    (FuncCall c store? ttl now fn read s d).invoked = false ∧
    FuncCall c store? ttl now fn read s d =
      { value := d.GetV, cacheErr := none, prodErr := none,
        data := d.ResetTTL now, store := s, invoked := false } := by
  have href : refreshStep ttl now read d = d.ResetTTL now := by
    unfold refreshStep
    simp [hr, hset, hfresh]
  have hunset' : (d.ResetTTL now).IsUnset = false := by
    unfold Data.ResetTTL Data.IsUnset
    simp [Int.ne_of_gt hnow]
  have hfresh' : (d.ResetTTL now).IsExpired ttl now = false := by
    have hls : (d.ResetTTL now).lastSet = now := rfl
    unfold Data.IsExpired Data.Age Forever
    rw [hls]
    by_cases h0 : ttl = 0
    · simp [h0]
    · simp only [if_neg h0, gt_iff_lt, decide_eq_false_iff_not, not_lt]
      rw [sub_self]
      exact httl
  have hval : (d.ResetTTL now).GetV = d.GetV := rfl
  refine ⟨?_, ?_, ?_, ?_⟩
  · simp [InMemoryCall, href, hf, hunset', hfresh']
  · simp [InMemoryCall, href, hf, hunset', hfresh', hval]
  · simp [FuncCall, FuncPre, load_of_set c store? s d hset, href, hf, hunset',
      hfresh']
  · simp [FuncCall, FuncPre, load_of_set c store? s d hset, href, hf, hunset',
      hfresh', hval]

/-- Claim C9 witness: a concrete refreshTTL-only call on a fresh value resets
`lastSet` to the call time and does not invoke the producer. -/
theorem C9_witness :
    (InMemoryCall natCodec 10 100 (7, none) { refreshTTL := true }
        (⟨3, 95, ""⟩ : Data Nat)).invoked = false ∧
    InMemoryCall natCodec 10 100 (7, none) { refreshTTL := true }
        (⟨3, 95, ""⟩ : Data Nat) =
      { value := 3, err := none, data := ⟨3, 100, ""⟩, invoked := false } :=
  ⟨(C9_refresh_ttl_resets_clock natCodec (some missStore) 10 100 (7, none)
      { refreshTTL := true } () ⟨3, 95, ""⟩ rfl rfl (by decide) (by decide)
      (by decide) (by decide)).1,
   by
    have h := (C9_refresh_ttl_resets_clock natCodec (some missStore) 10 100
      (7, none) { refreshTTL := true } () (⟨3, 95, ""⟩ : Data Nat) rfl rfl
      (by decide) (by decide) (by decide) (by decide)).2.1
    rw [h]
    rfl⟩

/-- Claim C10: `Map.Get` returns the zero value of `V` and false whenever the
entry is absent or the stored entry is expired for the map's ttl — expiry is
enforced at read time on whatever the map currently holds, independently of
any cleanup sweep — and otherwise returns the stored value and true. -/
theorem C10_map_get_read_time_expiry {V : Type} [Inhabited V] (m : Map V)
    (now : Time) (k : String) :
    (m.data.lookup k = none → m.Get now k = (default, false)) ∧
    (∀ d, m.data.lookup k = some d →
      m.Get now k =
        if d.IsExpired m.ttl now then (default, false) else (d.GetV, true)) := by
  constructor
  · intro h
    simp [Map.Get, h]
  · intro d h
    simp only [Map.Get, h]

/-- Claim C10 witness: a present-but-expired entry yields `(default, false)` at
read time. -/
theorem C10_witness :
    (Map.Get ⟨[("a", ⟨5, 80, "a"⟩)], 10⟩ 100 "a" : Nat × Bool) = (0, false) := by
  have h := (C10_map_get_read_time_expiry (V := Nat) ⟨[("a", ⟨5, 80, "a"⟩)], 10⟩
    100 "a").2 ⟨5, 80, "a"⟩ (by decide)
  rw [h]
  decide

end Cachin
